import Mathlib

set_option autoImplicit false

/-!
Shallow embedding of `src/lib.rs` of the `sentry-tide` middleware.

The middleware wraps a tide HTTP handler chain: per request it derives a
fresh hub from `Hub::main()`, sets the scope transaction to the request
path, registers one event processor capturing a request snapshot, runs the
downstream handlers, and on a 5xx response with an attached `tide::Error`
captures the error through the hub, optionally emits an `x-sentry-event`
header, and re-attaches the original error to the response.

External collaborator types (tide, http-types, sentry-core, sentry-anyhow,
uuid, anyhow) are modelled by the behaviour of the exact methods the
middleware calls: `sentry_core::protocol::Map` is a `BTreeMap`, modelled as
a key-sorted association list; `http_types` header iteration yields each
name once with its values, and `HeaderValues`' `Display` joins the values
with a comma and a space; `uuid`'s simple format is the 32-digit lowercase
hexadecimal rendering.
-/

namespace SentryTide

/-- A parsed URL as tide exposes it: the path component plus the remaining
rendered parts (scheme, authority, query, ...), which the middleware copies
whole but never inspects. -/
structure Url where
  path : String
  rest : String
  deriving DecidableEq, Repr

/-- `tide::Request`: url, method (already rendered to a string), the output
of the header iterator (`(name, values)` pairs, each name occurring once as
in `http_types::Headers`), and the optional remote peer address. -/
structure Request where
  url : Url
  method : String
  headers : List (String × List String)
  remote : Option String
  deriving DecidableEq, Repr

/-- `sentry_core::ClientOptions`, restricted to the one field read here. -/
structure ClientOptions where
  send_default_pii : Bool
  deriving DecidableEq, Repr

/-- `sentry_core::Client`. -/
structure Client where
  options : ClientOptions
  deriving DecidableEq, Repr

/-- `sentry_core::Hub`: the client handle it carries; the per-request scope
mutations (transaction, processor) are threaded explicitly in `handle`. -/
structure Hub where
  client : Option Client
  deriving DecidableEq, Repr

/-- `sentry_core::protocol::Request`, restricted to the fields this crate
writes; the remaining protocol fields are left at `Default::default()` and
never touched. `headers` and `env` are `Map`s (`BTreeMap`), modelled as
key-sorted association lists. -/
structure SentryRequest where
  url : Option Url
  method : Option String
  headers : List (String × String)
  env : List (String × String)
  deriving DecidableEq, Repr

/-- `sentry_core::protocol::ClientSdkPackage`. -/
structure ClientSdkPackage where
  name : String
  version : String
  deriving DecidableEq, Repr

/-- `sentry_core::protocol::ClientSdkInfo`. -/
structure ClientSdkInfo where
  name : String
  version : String
  integrations : List String
  packages : List ClientSdkPackage
  deriving DecidableEq, Repr

/-- `sentry_core::protocol::Event`, restricted to the fields this crate
reads or writes; `message` stands in for the payload produced by the
failure-to-event conversion, which `process_event` never touches. -/
structure Event where
  message : Option String
  request : Option SentryRequest
  sdk : Option ClientSdkInfo
  deriving DecidableEq, Repr

/-- An `anyhow::Error`: an opaque payload. -/
structure AnyhowError where
  payload : String
  deriving DecidableEq, Repr

/-- `tide::Error`: a status code with the wrapped anyhow payload;
`Error::status` returns the code and `Error::into_inner` the payload. -/
structure TideError where
  status : Nat
  inner : AnyhowError
  deriving DecidableEq, Repr

/-- `tide::Error::new(status, error)`. -/
def TideError.new (status : Nat) (inner : AnyhowError) : TideError :=
  { status := status, inner := inner }

/-- `tide::Response`: status code, headers, and the optional attached
error (`take_error` removes it, `set_error` stores one). -/
structure Response where
  status : Nat
  headers : List (String × String)
  error : Option TideError
  deriving DecidableEq, Repr

/-- `http_types::StatusCode::is_server_error`: the 5xx class. -/
def is_server_error (status : Nat) : Bool :=
  500 ≤ status && status ≤ 599

/-- Rust's `Ord` on `String` (lexicographic over the character data, the
order `BTreeMap` keys use), as a computable Boolean. -/
def strLt (a b : String) : Bool :=
  decide (a.data < b.data)

/-- Insertion into a key-sorted association list, replacing an existing
binding: the model of inserting into a `BTreeMap`
(`sentry_core::protocol::Map`). -/
def btreeInsert (m : List (String × String)) (k v : String) :
    List (String × String) :=
  match m with
  | [] => [(k, v)]
  | (k0, v0) :: rest =>
    if strLt k k0 then (k, v) :: (k0, v0) :: rest
    else if k = k0 then (k, v) :: rest
    else (k0, v0) :: btreeInsert rest k v

/-- Collecting an iterator of pairs into a `BTreeMap`: left fold of
`btreeInsert` (later bindings for a key replace earlier ones). -/
def btreeCollect (l : List (String × String)) : List (String × String) :=
  l.foldl (fun m kv => btreeInsert m kv.1 kv.2) []

/-- `http_types::HeaderValues`' `Display` (what `v.to_string()` produces):
all values registered under one header name, joined by a comma and a
space. -/
def headerValuesString (vs : List String) : String :=
  String.intercalate ", " vs

/-- `Response::insert_header`: replaces whatever was stored under the name
with the single given value. -/
def insert_header (headers : List (String × String)) (name value : String) :
    List (String × String) :=
  (name, value) :: headers.filter fun kv => kv.1 != name

/-- `env!("CARGO_PKG_NAME")`: the crate name baked in at compile time. -/
def CARGO_PKG_NAME : String := "sentry-tide"

/-- `env!("CARGO_PKG_VERSION")`: the crate version string baked in at
compile time (its exact value is irrelevant to every claim). -/
def CARGO_PKG_VERSION : String := "0.1.0"

/-- `sentry_request_from_http`: build the transaction label and the Sentry
request snapshot from the HTTP request. -/
def sentry_request_from_http (request : Request) (with_pii : Bool) :
    Option String × SentryRequest :=
  let transaction := some request.url.path
  let sentry_req : SentryRequest :=
    { url := some request.url
      method := some request.method
      headers :=
        btreeCollect (request.headers.map fun kv => (kv.1, headerValuesString kv.2))
      env := [] }
  let sentry_req :=
    if with_pii then
      match request.remote with
      | some remote => { sentry_req with env := btreeInsert sentry_req.env "REMOTE_ADDR" remote }
      | none => sentry_req
    else sentry_req
  (transaction, sentry_req)

/-- `process_event`: add request data to a Sentry event. -/
def process_event (event : Event) (request : SentryRequest) : Event :=
  let event :=
    if event.request.isNone then { event with request := some request }
    else event
  match event.sdk with
  | some sdk =>
    { event with
      sdk := some { sdk with
        packages := sdk.packages ++ [⟨CARGO_PKG_NAME, CARGO_PKG_VERSION⟩] } }
  | none => event

/-- The event processor the middleware registers on the request scope:
`move |event| Some(process_event(event, &sentry_req))`. -/
def scope_processor (sentry_req : SentryRequest) : Event → Option Event :=
  fun event => some (process_event event sentry_req)

/-- `sentry_anyhow`'s failure-to-event conversion (`capture_anyhow`'s event
construction): an event carrying the failure payload, with no request field
and no SDK metadata of its own. -/
def event_from_anyhow (e : AnyhowError) : Event :=
  { message := some e.payload, request := none, sdk := none }

/-- A sentry `EventId` (a UUID), as the 128-bit value it renders from. -/
structure Uuid where
  val : Nat
  deriving DecidableEq, Repr

/-- One lowercase hexadecimal digit. -/
def hexChar : Nat → Char
  | 0 => '0'
  | 1 => '1'
  | 2 => '2'
  | 3 => '3'
  | 4 => '4'
  | 5 => '5'
  | 6 => '6'
  | 7 => '7'
  | 8 => '8'
  | 9 => '9'
  | 10 => 'a'
  | 11 => 'b'
  | 12 => 'c'
  | 13 => 'd'
  | 14 => 'e'
  | 15 => 'f'
  | _ + 16 => '0'

/-- `w` lowercase hexadecimal digits of `n`, most significant first,
zero-padded. -/
def hexDigits : Nat → Nat → List Char
  | 0, _ => []
  | w + 1, n => hexDigits w (n / 16) ++ [hexChar (n % 16)]

/-- `uuid::Uuid::to_simple` rendered to a string: the 32-digit lowercase
hexadecimal form, with no hyphens. -/
def Uuid.to_simple (u : Uuid) : String :=
  String.mk (hexDigits 32 u.val)

/-- The middleware configuration. -/
structure SentryMiddleware where
  hub : Option Hub
  emit_header : Bool
  capture_server_errors : Bool
  deriving DecidableEq, Repr

/-- `SentryMiddleware::new`. -/
def SentryMiddleware.new : SentryMiddleware :=
  { hub := none, emit_header := false, capture_server_errors := true }

/-- `SentryMiddleware::with_hub`: use a specific hub instead of the default
one. -/
def SentryMiddleware.with_hub (self : SentryMiddleware) (hub : Hub) :
    SentryMiddleware :=
  { self with hub := some hub }

/-- `SentryMiddleware::with_default_hub`. -/
def SentryMiddleware.with_default_hub (self : SentryMiddleware) :
    SentryMiddleware :=
  { self with hub := none }

/-- Builder `SentryMiddleware::emit_header` (named apart from the field
it sets, which Lean does not allow to share its name). -/
def SentryMiddleware.set_emit_header (self : SentryMiddleware) (val : Bool) :
    SentryMiddleware :=
  { self with emit_header := val }

/-- Builder `SentryMiddleware::capture_server_errors`. -/
def SentryMiddleware.set_capture_server_errors (self : SentryMiddleware)
    (val : Bool) : SentryMiddleware :=
  { self with capture_server_errors := val }

/-- `impl Default for SentryMiddleware`. -/
def SentryMiddleware.default : SentryMiddleware :=
  SentryMiddleware.new

/-- `Hub::new_from_top`: a fresh hub sharing the given hub's client; its
scope mutations are threaded explicitly through `handle`. -/
def Hub.new_from_top (other : Hub) : Hub :=
  { client := other.client }

/-- `client.as_ref().map_or(false, |x| x.options().send_default_pii)`:
whether PII may be attached; an absent client counts as PII disabled. -/
def client_with_pii (client : Option Client) : Bool :=
  match client with
  | some x => x.options.send_default_pii
  | none => false

/-- The observable outcome of one `handle` call: the final response, and
the events submitted through the request's hub (the `capture_anyhow`
calls, after the scope's event processor ran). -/
structure HandleResult where
  response : Response
  submitted : List Event
  deriving DecidableEq, Repr

/-- `SentryMiddleware::handle`. `main_hub` stands for `Hub::main()`; `resp`
is the response produced by `next.run(request)` bound to the request hub;
`event_id` is the identifier the capture call returns. -/
def handle (self : SentryMiddleware) (main_hub : Hub) (request : Request)
    (resp : Response) (event_id : Uuid) : Except TideError HandleResult :=
  let hub := Hub.new_from_top main_hub
  let client := hub.client
  let with_pii := client_with_pii client
  let txreq := sentry_request_from_http request with_pii
  let sentry_req := txreq.2
  -- scope: transaction := txreq.1, processors := [scope_processor sentry_req]
  if self.capture_server_errors && is_server_error resp.status then
    match resp.error with
    | some error =>
      let status := error.status
      let anyhow_error := error.inner
      let response : Response := { resp with error := none }
      let submitted :=
        match scope_processor sentry_req (event_from_anyhow anyhow_error) with
        | some ev => [ev]
        | none => []
      let response :=
        if self.emit_header then
          { response with
            headers := insert_header response.headers "x-sentry-event" event_id.to_simple }
        else response
      let response := { response with error := some (TideError.new status anyhow_error) }
      Except.ok { response := response, submitted := submitted }
    | none => Except.ok { response := resp, submitted := [] }
  else Except.ok { response := resp, submitted := [] }

/-! Theorems. -/

/-- Claim C1: for every request whose response status is not a server error
(< 500), or whenever server-error capture is disabled in the configuration,
or when the 5xx response carries no attached structured failure object, no
event is submitted and the response is passed through unchanged (no header
added, any attached error left in place). -/
theorem handle_passthrough (self : SentryMiddleware) (main_hub : Hub)
    (request : Request) (resp : Response) (event_id : Uuid)
    (h : resp.status < 500 ∨ self.capture_server_errors = false ∨ resp.error = none) :
    handle self main_hub request resp event_id =
      Except.ok { response := resp, submitted := [] } := by
  rcases h with h | h | h
  · have hs : is_server_error resp.status = false := by
      simp only [is_server_error, Bool.and_eq_false_iff, decide_eq_false_iff_not]
      omega
    unfold handle
    simp [hs]
  · unfold handle
    simp [h]
  · unfold handle
    simp [h]

/-- Witness for `handle_passthrough` at a concrete 200 response. -/
theorem handle_passthrough_witness :
    handle SentryMiddleware.new { client := none }
      { url := { path := "/a", rest := "" }, method := "GET", headers := [], remote := none }
      { status := 200, headers := [], error := none } { val := 0 } =
      Except.ok { response := { status := 200, headers := [], error := none }, submitted := [] } :=
  handle_passthrough _ _ _ _ _ (Or.inl (by decide))

/-- Claim C10: the event processor this middleware registers never
suppresses an event: for every input event it returns `some` of a
(possibly modified) event, never `none`. -/
theorem scope_processor_never_suppresses (sentry_req : SentryRequest) (event : Event) :
    (scope_processor sentry_req event).isSome = true :=
  rfl

/-- Claim C7: the Request Snapshot contains the remote peer address
(under the `REMOTE_ADDR` env key) if and only if the PII flag is true and
the peer address is known; an absent client counts as PII disabled. -/
theorem snapshot_remote_addr (client : Option Client) (request : Request) :
    ((sentry_request_from_http request (client_with_pii client)).2.env.lookup "REMOTE_ADDR"
      = if client_with_pii client = true then request.remote else none) ∧
    client_with_pii none = false := by
  refine ⟨?_, rfl⟩
  cases hp : client_with_pii client
  · simp [sentry_request_from_http, hp]
  · cases hr : request.remote
    · simp [sentry_request_from_http, hp, hr]
    · simp [sentry_request_from_http, hp, hr, btreeInsert, List.lookup]

/-- Claim C4: the enrichment processor's request-field update is
idempotent: if the event's request field is already `some`, it is left
unchanged; only when it is `none` is it filled from the snapshot; filling
is stable under a second application. -/
theorem process_event_request_update (event : Event) (request : SentryRequest) :
    (event.request.isSome = true → (process_event event request).request = event.request) ∧
    (event.request = none → (process_event event request).request = some request) ∧
    (process_event (process_event event request) request).request =
      (process_event event request).request := by
  refine ⟨?_, ?_, ?_⟩ <;>
    cases hr : event.request <;>
      cases hs : event.sdk <;>
        simp [process_event, hr, hs]

/-- Witness for `process_event_request_update`: an absent request field is
filled from the snapshot. -/
theorem process_event_request_update_witness :
    (process_event { message := none, request := none, sdk := none }
        { url := none, method := none, headers := [], env := [] }).request =
      some { url := none, method := none, headers := [], env := [] } :=
  (process_event_request_update _ _).2.1 rfl

/-- Claim C5: when the event already carries SDK metadata, `process_event`
appends exactly one package entry (this crate's name and version) and
leaves the existing entries (and the other SDK fields) undisturbed; when
the event carries no SDK metadata, none is fabricated. -/
theorem process_event_sdk_update (event : Event) (request : SentryRequest) :
    (∀ sdk, event.sdk = some sdk →
      (process_event event request).sdk =
        some { sdk with
          packages := sdk.packages ++
            [{ name := CARGO_PKG_NAME, version := CARGO_PKG_VERSION }] }) ∧
    (event.sdk = none → (process_event event request).sdk = none) := by
  constructor
  · intro sdk hs
    cases hr : event.request <;> simp [process_event, hr, hs]
  · intro hs
    cases hr : event.request <;> simp [process_event, hr, hs]

/-- Witness for `process_event_sdk_update`: one package entry is appended
to existing SDK metadata. -/
theorem process_event_sdk_update_witness :
    (process_event
        { message := none, request := none,
          sdk := some { name := "n", version := "v", integrations := [],
                        packages := [{ name := "p", version := "q" }] } }
        { url := none, method := none, headers := [], env := [] }).sdk =
      some { name := "n", version := "v", integrations := [],
             packages := [{ name := "p", version := "q" },
                          { name := CARGO_PKG_NAME, version := CARGO_PKG_VERSION }] } :=
  (process_event_sdk_update _ _).1 _ rfl

/-- Reduction of `handle` on the capture path: capture enabled, 5xx
status, error attached.  Shared helper for the capture-path claims. -/
theorem handle_capture_cases (self : SentryMiddleware) (main_hub : Hub)
    (request : Request) (resp : Response) (event_id : Uuid) (error : TideError)
    (hc : self.capture_server_errors = true)
    (hs : is_server_error resp.status = true)
    (he : resp.error = some error) :
    handle self main_hub request resp event_id =
      Except.ok
        { response :=
            { resp with
              headers :=
                if self.emit_header then
                  insert_header resp.headers "x-sentry-event" event_id.to_simple
                else resp.headers
              error := some (TideError.new error.status error.inner) }
          submitted :=
            [{ message := some error.inner.payload
               request := some (sentry_request_from_http request
                 (client_with_pii main_hub.client)).2
               sdk := none }] } := by
  unfold handle
  cases hemit : self.emit_header <;>
    simp [hc, hs, he, hemit, scope_processor, Hub.new_from_top,
      process_event, event_from_anyhow]

/-- Claim C2: on a 5xx response with capture enabled and a failure
attached, exactly one event is submitted (carrying the original failure
payload and the request snapshot), the response afterwards carries a
failure object with the original status code and payload, the response
status is unchanged, and `handle` returns `Ok`. -/
theorem handle_capture (self : SentryMiddleware) (main_hub : Hub)
    (request : Request) (resp : Response) (event_id : Uuid) (error : TideError)
    (hc : self.capture_server_errors = true)
    (hs : is_server_error resp.status = true)
    (he : resp.error = some error) :
    ∃ r : HandleResult,
      handle self main_hub request resp event_id = Except.ok r ∧
      r.submitted.length = 1 ∧
      (∀ ev ∈ r.submitted,
        ev.message = some error.inner.payload ∧
        ev.request = some (sentry_request_from_http request
          (client_with_pii main_hub.client)).2) ∧
      r.response.status = resp.status ∧
      r.response.error = some (TideError.new error.status error.inner) := by
  refine ⟨_, handle_capture_cases self main_hub request resp event_id error hc hs he,
    rfl, ?_, rfl, rfl⟩
  intro ev hev
  rw [List.mem_singleton] at hev
  subst hev
  exact ⟨rfl, rfl⟩

/-- Witness for `handle_capture` at a concrete 503 response. -/
theorem handle_capture_witness :
    ∃ r : HandleResult,
      handle SentryMiddleware.new { client := none }
        { url := { path := "/o", rest := "u" }, method := "GET", headers := [], remote := none }
        { status := 503, headers := [], error := some { status := 503, inner := { payload := "b" } } }
        { val := 1 } = Except.ok r ∧
      r.submitted.length = 1 ∧
      (∀ ev ∈ r.submitted,
        ev.message = some "b" ∧
        ev.request = some (sentry_request_from_http
          { url := { path := "/o", rest := "u" }, method := "GET", headers := [], remote := none }
          (client_with_pii none)).2) ∧
      r.response.status = 503 ∧
      r.response.error = some (TideError.new 503 { payload := "b" }) :=
  handle_capture SentryMiddleware.new { client := none }
    { url := { path := "/o", rest := "u" }, method := "GET", headers := [], remote := none }
    { status := 503, headers := [], error := some { status := 503, inner := { payload := "b" } } }
    { val := 1 } { status := 503, inner := { payload := "b" } } rfl (by decide) rfl

/-- `hexChar` never produces a hyphen. -/
theorem hexChar_ne_dash (n : Nat) : hexChar n ≠ '-' := by
  unfold hexChar
  split <;> decide

/-- No digit of a hexadecimal rendering is a hyphen. -/
theorem hexDigits_ne_dash (w n : Nat) : ∀ c ∈ hexDigits w n, c ≠ '-' := by
  induction w generalizing n with
  | zero =>
    intro c hc
    simp [hexDigits] at hc
  | succ w ih =>
    intro c hc
    simp only [hexDigits, List.mem_append, List.mem_singleton] at hc
    rcases hc with hc | hc
    · exact ih _ c hc
    · rw [hc]
      exact hexChar_ne_dash _

/-- A hexadecimal rendering of width `w` has exactly `w` digits. -/
theorem hexDigits_length (w n : Nat) : (hexDigits w n).length = w := by
  induction w generalizing n with
  | zero => rfl
  | succ w ih => simp [hexDigits, ih]

/-- Claim C6: on the capture path, enabling header emission sets the
`x-sentry-event` header to the simple (no-dash, 32 hex digit) rendering of
the event identifier; disabling it leaves the headers untouched even
though capture occurs. -/
theorem handle_header_emission (self : SentryMiddleware) (main_hub : Hub)
    (request : Request) (resp : Response) (event_id : Uuid) (error : TideError)
    (hc : self.capture_server_errors = true)
    (hs : is_server_error resp.status = true)
    (he : resp.error = some error) :
    ∃ r : HandleResult,
      handle self main_hub request resp event_id = Except.ok r ∧
      (self.emit_header = true →
        r.response.headers.lookup "x-sentry-event" = some event_id.to_simple ∧
        event_id.to_simple.length = 32 ∧
        ∀ c ∈ event_id.to_simple.data, c ≠ '-') ∧
      (self.emit_header = false → r.response.headers = resp.headers) := by
  refine ⟨_, handle_capture_cases self main_hub request resp event_id error hc hs he,
    ?_, ?_⟩
  · intro hemit
    refine ⟨?_, hexDigits_length 32 event_id.val, ?_⟩
    · simp [hemit, insert_header, List.lookup]
    · intro c hc2
      exact hexDigits_ne_dash 32 event_id.val c hc2
  · intro hemit
    simp [hemit]

/-- Witness for `handle_header_emission` with emission enabled. -/
theorem handle_header_emission_witness :
    ∃ r : HandleResult,
      handle (SentryMiddleware.new.set_emit_header true) { client := none }
        { url := { path := "/o", rest := "u" }, method := "GET", headers := [], remote := none }
        { status := 500, headers := [], error := some { status := 500, inner := { payload := "b" } } }
        { val := 255 } = Except.ok r ∧
      ((SentryMiddleware.new.set_emit_header true).emit_header = true →
        r.response.headers.lookup "x-sentry-event" = some (Uuid.to_simple { val := 255 }) ∧
        (Uuid.to_simple { val := 255 }).length = 32 ∧
        ∀ c ∈ (Uuid.to_simple { val := 255 }).data, c ≠ '-') ∧
      ((SentryMiddleware.new.set_emit_header true).emit_header = false →
        r.response.headers = []) :=
  handle_header_emission (SentryMiddleware.new.set_emit_header true) { client := none }
    { url := { path := "/o", rest := "u" }, method := "GET", headers := [], remote := none }
    { status := 500, headers := [], error := some { status := 500, inner := { payload := "b" } } }
    { val := 255 } { status := 500, inner := { payload := "b" } } rfl (by decide) rfl

/-- Lookup at the head of an association list. -/
theorem lookup_cons_self {v : String} (l : List (String × String)) (k : String) :
    ((k, v) :: l).lookup k = some v := by
  simp [List.lookup]

/-- Lookup skips a head entry with a different key. -/
theorem lookup_cons_ne {k0 v0 : String} {l : List (String × String)} {k : String}
    (h : k ≠ k0) : ((k0, v0) :: l).lookup k = l.lookup k := by
  simp [List.lookup, beq_false_of_ne h]

/-- A key outside the key list looks up to `none`. -/
theorem lookup_eq_none_of_not_mem_keys {l : List (String × String)} {k : String}
    (h : k ∉ l.map Prod.fst) : l.lookup k = none := by
  induction l with
  | nil => rfl
  | cons kv rest ih =>
    obtain ⟨k0, v0⟩ := kv
    simp only [List.map_cons, List.mem_cons, not_or] at h
    rw [lookup_cons_ne h.1, ih h.2]

/-- `strLt` agrees with the string order. -/
theorem strLt_iff (a b : String) : strLt a b = true ↔ a < b := by
  rw [strLt, decide_eq_true_eq]
  exact String.lt_iff_toList_lt.symm

/-- `strLt` is false on non-smaller strings. -/
theorem strLt_eq_false {a b : String} (h : ¬a < b) : strLt a b = false := by
  cases hb : strLt a b
  · rfl
  · exact absurd ((strLt_iff a b).mp hb) h

/-- `btreeInsert` unfolding: smaller key goes to the front. -/
theorem btreeInsert_cons_lt {k k0 v v0 : String} {rest : List (String × String)}
    (h1 : k < k0) :
    btreeInsert ((k0, v0) :: rest) k v = (k, v) :: (k0, v0) :: rest := by
  simp [btreeInsert, (strLt_iff k k0).mpr h1]

/-- `btreeInsert` unfolding: an equal key replaces the head binding. -/
theorem btreeInsert_cons_eq {k0 v v0 : String} {rest : List (String × String)} :
    btreeInsert ((k0, v0) :: rest) k0 v = (k0, v) :: rest := by
  simp [btreeInsert, strLt_eq_false (lt_irrefl k0)]

/-- `btreeInsert` unfolding: a greater key is inserted into the tail. -/
theorem btreeInsert_cons_gt {k k0 v v0 : String} {rest : List (String × String)}
    (h1 : k0 < k) :
    btreeInsert ((k0, v0) :: rest) k v = (k0, v0) :: btreeInsert rest k v := by
  simp [btreeInsert, strLt_eq_false (asymm h1), ne_of_gt h1]

/-- `btreeInsert` makes the inserted key look up to the inserted value. -/
theorem btreeInsert_lookup_self (m : List (String × String)) (k v : String) :
    (btreeInsert m k v).lookup k = some v := by
  induction m with
  | nil => simp [btreeInsert, List.lookup]
  | cons kv rest ih =>
    obtain ⟨k0, v0⟩ := kv
    rcases lt_trichotomy k k0 with h1 | h1 | h1
    · rw [btreeInsert_cons_lt h1, lookup_cons_self]
    · subst h1
      rw [btreeInsert_cons_eq, lookup_cons_self]
    · rw [btreeInsert_cons_gt h1, lookup_cons_ne (ne_of_gt h1), ih]

/-- `btreeInsert` leaves other keys' lookups unchanged. -/
theorem btreeInsert_lookup_ne (m : List (String × String)) (k v k' : String)
    (h : k' ≠ k) : (btreeInsert m k v).lookup k' = m.lookup k' := by
  induction m with
  | nil => simp [btreeInsert, List.lookup, beq_false_of_ne h]
  | cons kv rest ih =>
    obtain ⟨k0, v0⟩ := kv
    rcases lt_trichotomy k k0 with h1 | h1 | h1
    · rw [btreeInsert_cons_lt h1, lookup_cons_ne h]
    · subst h1
      rw [btreeInsert_cons_eq, lookup_cons_ne h, lookup_cons_ne h]
    · by_cases h3 : k' = k0
      · subst h3
        rw [btreeInsert_cons_gt h1, lookup_cons_self, lookup_cons_self]
      · rw [btreeInsert_cons_gt h1, lookup_cons_ne h3, lookup_cons_ne h3, ih]

/-- Every key of `btreeInsert m k v` is `k` or a key of `m`. -/
theorem btreeInsert_keys_subset (m : List (String × String)) (k v : String) :
    ∀ a ∈ (btreeInsert m k v).map Prod.fst, a = k ∨ a ∈ m.map Prod.fst := by
  induction m with
  | nil =>
    intro a ha
    simp [btreeInsert] at ha
    exact Or.inl ha
  | cons kv rest ih =>
    obtain ⟨k0, v0⟩ := kv
    intro a ha
    rcases lt_trichotomy k k0 with h1 | h1 | h1
    · rw [btreeInsert_cons_lt h1] at ha
      simp only [List.map_cons, List.mem_cons] at ha ⊢
      tauto
    · subst h1
      rw [btreeInsert_cons_eq] at ha
      simp only [List.map_cons, List.mem_cons] at ha ⊢
      tauto
    · rw [btreeInsert_cons_gt h1] at ha
      simp only [List.map_cons, List.mem_cons] at ha ⊢
      rcases ha with ha | ha
      · tauto
      · rcases ih a ha with ha' | ha' <;> tauto

/-- `btreeInsert` preserves strict sortedness of the key list. -/
theorem btreeInsert_sorted (m : List (String × String)) (k v : String)
    (h : ((m.map Prod.fst).Sorted (· < ·))) :
    (((btreeInsert m k v).map Prod.fst).Sorted (· < ·)) := by
  induction m with
  | nil => simp [btreeInsert]
  | cons kv rest ih =>
    obtain ⟨k0, v0⟩ := kv
    rw [List.map_cons, List.sorted_cons] at h
    obtain ⟨h0, hrest⟩ := h
    rcases lt_trichotomy k k0 with h1 | h1 | h1
    · rw [btreeInsert_cons_lt h1]
      simp only [List.map_cons, List.sorted_cons, List.mem_cons]
      refine ⟨?_, h0, hrest⟩
      intro b hb
      rcases hb with rfl | hb
      · exact h1
      · exact lt_trans h1 (h0 b hb)
    · subst h1
      rw [btreeInsert_cons_eq]
      simp only [List.map_cons, List.sorted_cons]
      exact ⟨h0, hrest⟩
    · rw [btreeInsert_cons_gt h1]
      simp only [List.map_cons, List.sorted_cons]
      refine ⟨?_, ih hrest⟩
      intro b hb
      rcases btreeInsert_keys_subset rest k v b hb with rfl | hb'
      · exact h1
      · exact h0 b hb'

/-- Folding `btreeInsert` over pairs with distinct keys: lookups read the
pair list first, then the accumulator. -/
theorem foldl_btreeInsert_lookup (l : List (String × String)) (acc : List (String × String))
    (k : String) (hnd : (l.map Prod.fst).Nodup) :
    (l.foldl (fun m kv => btreeInsert m kv.1 kv.2) acc).lookup k =
      (match l.lookup k with
       | some v => some v
       | none => acc.lookup k) := by
  induction l generalizing acc with
  | nil => simp [List.lookup]
  | cons kv rest ih =>
    obtain ⟨k0, v0⟩ := kv
    rw [List.map_cons, List.nodup_cons] at hnd
    obtain ⟨hk0, hrest⟩ := hnd
    rw [List.foldl_cons, ih _ hrest]
    by_cases h : k = k0
    · subst h
      have hnone : rest.lookup k = none := lookup_eq_none_of_not_mem_keys hk0
      simp only [hnone, lookup_cons_self, btreeInsert_lookup_self]
    · rw [btreeInsert_lookup_ne _ _ _ _ h, lookup_cons_ne h]

/-- Folding `btreeInsert` preserves key sortedness. -/
theorem foldl_btreeInsert_sorted (l : List (String × String)) (acc : List (String × String))
    (h : ((acc.map Prod.fst).Sorted (· < ·))) :
    (((l.foldl (fun m kv => btreeInsert m kv.1 kv.2) acc).map Prod.fst).Sorted (· < ·)) := by
  induction l generalizing acc with
  | nil => exact h
  | cons kv rest ih => exact ih _ (btreeInsert_sorted _ _ _ h)

/-- `btreeCollect` has a strictly sorted key list. -/
theorem btreeCollect_sorted (l : List (String × String)) :
    (((btreeCollect l).map Prod.fst).Sorted (· < ·)) :=
  foldl_btreeInsert_sorted l [] (by simp)

/-- On pair lists with distinct keys, `btreeCollect` preserves lookups. -/
theorem btreeCollect_lookup (l : List (String × String)) (k : String)
    (hnd : (l.map Prod.fst).Nodup) :
    (btreeCollect l).lookup k = l.lookup k := by
  rw [btreeCollect, foldl_btreeInsert_lookup l [] k hnd]
  cases h : l.lookup k <;> simp [List.lookup]

/-- Claim C8 counterexample: the snapshot's headers are not a verbatim
copy of the request's.  Two values registered under one header name are
merged into a single comma-joined entry rather than kept as separate
entries, and entries come out sorted by name rather than in request
iteration order. -/
theorem snapshot_headers_not_verbatim :
    (sentry_request_from_http
        { url := { path := "/", rest := "" }, method := "GET",
          headers := [("x-a", ["1", "2"])], remote := none } false).2.headers ≠
      [("x-a", "1"), ("x-a", "2")] ∧
    (sentry_request_from_http
        { url := { path := "/", rest := "" }, method := "GET",
          headers := [("zb", ["1"]), ("a", ["2"])], remote := none } false).2.headers =
      [("a", "2"), ("zb", "1")] := by
  constructor
  · decide
  · decide

/-- Claim C8 (amended): the snapshot's url and method are copied verbatim
from the request; its headers are collected into a name-sorted map in
which all values of one header name are merged into a single comma-joined
entry, so that (for requests whose header names are distinct, as in
`http_types::Headers`) looking up a name yields its joined value string. -/
theorem snapshot_url_method_headers (request : Request) (with_pii : Bool)
    (hnd : ((request.headers.map Prod.fst).Nodup)) :
    (sentry_request_from_http request with_pii).2.url = some request.url ∧
    (sentry_request_from_http request with_pii).2.method = some request.method ∧
    (((sentry_request_from_http request with_pii).2.headers.map Prod.fst).Sorted (· < ·)) ∧
    ∀ k, (sentry_request_from_http request with_pii).2.headers.lookup k =
      (request.headers.map fun kv => (kv.1, headerValuesString kv.2)).lookup k := by
  have hhd : (sentry_request_from_http request with_pii).2.headers =
      btreeCollect (request.headers.map fun kv => (kv.1, headerValuesString kv.2)) := by
    unfold sentry_request_from_http
    cases with_pii
    · rfl
    · cases request.remote <;> rfl
  have hurl : (sentry_request_from_http request with_pii).2.url = some request.url := by
    unfold sentry_request_from_http
    cases with_pii
    · rfl
    · cases request.remote <;> rfl
  have hmethod : (sentry_request_from_http request with_pii).2.method = some request.method := by
    unfold sentry_request_from_http
    cases with_pii
    · rfl
    · cases request.remote <;> rfl
  have hnd' : (((request.headers.map fun kv => (kv.1, headerValuesString kv.2)).map
      Prod.fst).Nodup) := by
    rw [List.map_map]
    exact hnd
  refine ⟨hurl, hmethod, ?_, ?_⟩
  · rw [hhd]
    exact btreeCollect_sorted _
  · intro k
    rw [hhd]
    exact btreeCollect_lookup _ k hnd'

/-- Witness for `snapshot_url_method_headers` on a concrete two-header
request. -/
theorem snapshot_url_method_headers_witness :
    (sentry_request_from_http
        { url := { path := "/w", rest := "" }, method := "PUT",
          headers := [("zb", ["1"]), ("a", ["2", "3"])], remote := none } true).2.url =
      some { path := "/w", rest := "" } ∧
    (sentry_request_from_http
        { url := { path := "/w", rest := "" }, method := "PUT",
          headers := [("zb", ["1"]), ("a", ["2", "3"])], remote := none } true).2.method =
      some "PUT" ∧
    ((((sentry_request_from_http
        { url := { path := "/w", rest := "" }, method := "PUT",
          headers := [("zb", ["1"]), ("a", ["2", "3"])], remote := none } true).2.headers.map
        Prod.fst).Sorted (· < ·))) ∧
    ∀ k, (sentry_request_from_http
        { url := { path := "/w", rest := "" }, method := "PUT",
          headers := [("zb", ["1"]), ("a", ["2", "3"])], remote := none } true).2.headers.lookup k =
      ([("zb", ["1"]), ("a", ["2", "3"])].map fun kv =>
        ((kv : String × List String).1, headerValuesString kv.2)).lookup k :=
  snapshot_url_method_headers
    { url := { path := "/w", rest := "" }, method := "PUT",
      headers := [("zb", ["1"]), ("a", ["2", "3"])], remote := none } true (by decide)

/-- Claim C3, evaluated against the code (refuted): `handle` never reads
the hub stored by `with_hub` — it derives the per-request hub from
`Hub::main()` unconditionally, so a middleware configured via `with_hub`
behaves exactly like one configured via `with_default_hub`.  Concretely,
with a configured hub whose client enables PII but no client on the main
hub, the captured event's snapshot still carries no `REMOTE_ADDR` even
though the peer address is known. -/
theorem handle_ignores_configured_hub :
    (∀ (mw : SentryMiddleware) (h : Hub) (main_hub : Hub) (request : Request)
        (resp : Response) (event_id : Uuid),
      handle (mw.with_hub h) main_hub request resp event_id =
        handle mw.with_default_hub main_hub request resp event_id) ∧
    handle (SentryMiddleware.new.with_hub
        { client := some { options := { send_default_pii := true } } })
      { client := none }
      { url := { path := "/a", rest := "h" }, method := "GET", headers := [],
        remote := some "1.2.3.4" }
      { status := 500, headers := [],
        error := some { status := 500, inner := { payload := "boom" } } }
      { val := 0 } =
      Except.ok
        { response :=
            { status := 500, headers := [],
              error := some { status := 500, inner := { payload := "boom" } } }
          submitted :=
            [{ message := some "boom"
               request := some
                 { url := some { path := "/a", rest := "h" }
                   method := some "GET"
                   headers := []
                   env := [] }
               sdk := none }] } :=
  ⟨fun _ _ _ _ _ _ => rfl, rfl⟩

end SentryTide
